import Mathlib

/-!
Verification development for the vintelegram marketplace-monitoring bot.

The Python sources (`vinted_client.py`, `lbc_client.py`, `database.py`,
`db_config_manager.py`, `bot.py`) are shallowly embedded below:

* timestamps (`datetime` values) are `Int` seconds since the epoch;
* the sqlite store is a record of three lists mirroring the `chats`,
  `search_urls` and `seen_items` tables;
* the `Any`-typed `price` field is carried as its Python `str()` rendering,
  which is what the one place that consumes it (an f-string) observes;
* network fetches, message deliveries and wall-clock time are oracles passed
  to the poll-cycle model.
-/

/-- An item snapshot, mirroring the `Item` dataclass shared by
`VintedClient` and `LeBonCoinClient` (same nine fields in both files). -/
structure Item where
  title : String
  price : String
  currency : String
  url : String
  photo_url : String
  brand : String
  created_at : Int
  id : String
  search_url : String
deriving Repr, DecidableEq

/-- Models `VintedClient.format_item_message` (vinted_client.py lines
124-138): unconditional header lines, then three lines guarded by Python
truthiness of the corresponding string field. -/
def VintedClient.format_item_message (item : Item) : String :=
  let m := "🛍️ *" ++ item.title ++ "*\n"
  let m := m ++ "🏷️ Brand: " ++ item.brand ++ "\n"
  let m := m ++ "💰 Price: " ++ item.price ++ " " ++ item.currency ++ "\n"
  let m := if item.url ≠ "" then m ++ "🔗 [View on Vinted](" ++ item.url ++ ")\n" else m
  let m := if item.photo_url ≠ "" then m ++ "📸 [Photo](" ++ item.photo_url ++ ")\n" else m
  let m := if item.search_url ≠ "" then m ++ "🔍 [Search URL](" ++ item.search_url ++ ")\n" else m
  m

/-- Models `LeBonCoinClient.format_item_message` (lbc_client.py lines
114-131): identical shape, different link caption. -/
def LeBonCoinClient.format_item_message (item : Item) : String :=
  let m := "🛍️ *" ++ item.title ++ "*\n"
  let m := m ++ "🏷️ Brand: " ++ item.brand ++ "\n"
  let m := m ++ "💰 Price: " ++ item.price ++ " " ++ item.currency ++ "\n"
  let m := if item.url ≠ "" then m ++ "🔗 [View on Leboncoin](" ++ item.url ++ ")\n" else m
  let m := if item.photo_url ≠ "" then m ++ "📸 [Photo](" ++ item.photo_url ++ ")\n" else m
  let m := if item.search_url ≠ "" then m ++ "🔍 [Search URL](" ++ item.search_url ++ ")\n" else m
  m

/-- A positional argument of a Python method call, as the bot passes them:
either an `Item` or a plain string. -/
inductive PyArg where
  | item (it : Item)
  | str (s : String)
deriving Repr, DecidableEq

/-- Python call semantics for `VintedClient.format_item_message`: the method
declares exactly one positional parameter besides `self`
(vinted_client.py line 124), so any other arity raises `TypeError`. -/
def VintedClient.format_item_message_call (args : List PyArg) : Except String String :=
  match args with
  | [PyArg.item it] => Except.ok (VintedClient.format_item_message it)
  | _ => Except.error "TypeError"

/-- Python call semantics for `LeBonCoinClient.format_item_message`
(lbc_client.py line 114): one positional parameter besides `self`. -/
def LeBonCoinClient.format_item_message_call (args : List PyArg) : Except String String :=
  match args with
  | [PyArg.item it] => Except.ok (LeBonCoinClient.format_item_message it)
  | _ => Except.error "TypeError"

/-! ## URL validation (urllib.parse.urlparse netloc + substring test) -/

/-- Characters allowed in a URL scheme after the first one, as in
`urllib.parse` (`scheme_chars`). -/
def schemeChar (c : Char) : Bool :=
  c.isAlpha || c.isDigit || c == '+' || c == '-' || c == '.'

/-- Strips a leading `scheme:` from the character list if one is present:
a nonempty run of scheme characters starting with a letter, terminated by
a colon before any of `/`, `?`, `#`.  Returns `none` when the input has no
such scheme prefix.  Models the scheme-splitting step of
`urllib.parse.urlsplit`. -/
def dropSchemeAux (started : Bool) : List Char → Option (List Char)
  | [] => none
  | c :: cs =>
    if c == ':' then (if started then some cs else none)
    else if (if started then schemeChar c else c.isAlpha) then dropSchemeAux true cs
    else none

/-- The `netloc` component computed by `urllib.parse.urlparse`: after the
optional `scheme:`, a netloc is present exactly when the remainder begins
with `//`, and extends to the next `/`, `?` or `#`. -/
def urlparse_netloc (url : String) : String :=
  let cs := url.toList
  let rest := (dropSchemeAux false cs).getD cs
  match rest with
  | '/' :: '/' :: r => String.mk (r.takeWhile (fun c => !(c == '/' || c == '?' || c == '#')))
  | _ => ""

/-- Python `str.lower()` on the ASCII hostnames at issue. -/
def pyLower (s : String) : String :=
  String.mk (s.toList.map Char.toLower)

/-- Boolean prefix test on character lists (needle first). -/
def isPrefixB : List Char → List Char → Bool
  | [], _ => true
  | _ :: _, [] => false
  | n :: ns, h :: hs => n == h && isPrefixB ns hs

/-- Boolean substring test (haystack first), modelling Python `needle in hay`. -/
def containsSub : List Char → List Char → Bool
  | [], needle => isPrefixB needle []
  | c :: t, needle => isPrefixB needle (c :: t) || containsSub t needle

/-- Python `needle in hay` on strings. -/
def py_in (needle hay : String) : Bool :=
  containsSub hay.toList needle.toList

/-- Models `VintedClient.validate_url` (vinted_client.py lines 140-146):
`'vinted' in urlparse(url).netloc.lower()`.  The guarding `try` never
fires, since `urlparse` on a string does not raise. -/
def VintedClient.validate_url (url : String) : Bool :=
  py_in "vinted" (pyLower (urlparse_netloc url))

/-- Models `LeBonCoinClient.validate_url` (lbc_client.py lines 133-139):
`'leboncoin' in urlparse(url).netloc.lower()`. -/
def LeBonCoinClient.validate_url (url : String) : Bool :=
  py_in "leboncoin" (pyLower (urlparse_netloc url))

/-! ## The sqlite store (database.py) -/

/-- A row of the `chats` table (`chat_id`, `name`, `paused`; the price
columns and `created_at` play no part in any modelled operation). -/
structure ChatRow where
  chat_id : Int
  name : String
  paused : Bool
deriving Repr, DecidableEq

/-- A row of the `seen_items` table: primary key
`(chat_id, url, item_id)` plus the `seen_at` timestamp. -/
structure SeenRecord where
  chat_id : Int
  url : String
  item_id : String
  seen_at : Int
deriving Repr, DecidableEq

/-- The database state: the three tables created by
`Database.init_database`.  `search_urls` rows are `(chat_id, url)` pairs
(unique per pair), kept in insertion (`added_at`) order. -/
structure DB where
  chats : List ChatRow
  search_urls : List (Int × String)
  seen_items : List SeenRecord
deriving Repr, DecidableEq

/-- Models `Database.add_chat` (database.py lines 73-93):
`INSERT OR IGNORE` keyed on `chat_id`; `paused` defaults to `0`. -/
def Database.add_chat (db : DB) (chat_id : Int) (name : String) : Bool × DB :=
  if db.chats.any (fun c => c.chat_id == chat_id) then (false, db)
  else (true, { db with chats := db.chats ++ [⟨chat_id, name, false⟩] })

/-- Models `Database.get_search_urls` (database.py lines 153-168):
urls of one chat in `added_at` (insertion) order. -/
def Database.get_search_urls (db : DB) (chat_id : Int) : List String :=
  (db.search_urls.filter (fun p => p.1 == chat_id)).map (fun p => p.2)

/-- Models `Database.get_all_chats` (database.py lines 170-199) restricted
to the fields its callers read: for each chat row, its id, `paused` flag
and `search_urls` list. -/
def Database.get_all_chats (db : DB) : List (Int × Bool × List String) :=
  db.chats.map (fun c => (c.chat_id, c.paused, Database.get_search_urls db c.chat_id))

/-- Models `Database.add_seen_item` (database.py lines 201-219):
`INSERT OR IGNORE INTO seen_items` under primary key
`(chat_id, url, item_id)`; returns whether a row was inserted.  `seen_at`
defaults to the current timestamp, passed as `now`. -/
def Database.add_seen_item (db : DB) (chat_id : Int) (item_id : String) (url : String)
    (now : Int) : Bool × DB :=
  if db.seen_items.any (fun r => r.chat_id == chat_id && r.url == url && r.item_id == item_id) then
    (false, db)
  else
    (true, { db with seen_items := db.seen_items ++ [⟨chat_id, url, item_id, now⟩] })

/-- Models `Database.get_seen_items` (database.py lines 221-242): item ids
for a chat, filtered by url only when `url` is truthy (nonempty). -/
def Database.get_seen_items (db : DB) (chat_id : Int) (url : String) : List String :=
  if url ≠ "" then
    (db.seen_items.filter (fun r => r.chat_id == chat_id && r.url == url)).map
      (fun r => r.item_id)
  else
    (db.seen_items.filter (fun r => r.chat_id == chat_id)).map (fun r => r.item_id)

/-- Models `Database.remove_search_url` (database.py lines 120-151): one
transaction deleting the chat's seen items for the url, then the
`search_urls` row; returns whether a url row was deleted. -/
def Database.remove_search_url (db : DB) (chat_id : Int) (url : String) : Bool × DB :=
  let seen' := db.seen_items.filter (fun r => !(r.chat_id == chat_id && r.url == url))
  let urls' := db.search_urls.filter (fun p => !(p.1 == chat_id && p.2 == url))
  let url_removed := db.search_urls.any (fun p => p.1 == chat_id && p.2 == url)
  (url_removed, { db with seen_items := seen', search_urls := urls' })

/-- Models `Database.remove_search_url` including its exception path: the
two `DELETE` statements run inside a single sqlite connection context, so
an I/O failure (`fail = true`) rolls the transaction back — the method
logs, returns `False`, and the store is unchanged. -/
def Database.remove_search_url_io (fail : Bool) (db : DB) (chat_id : Int) (url : String) :
    Bool × DB :=
  if fail then (false, db) else Database.remove_search_url db chat_id url

/-- Models `Database.update_chat_settings` (database.py lines 244-276) at
its only modelled call sites, which pass the single kwarg `paused`:
ensure the chat row exists, then set `paused` for that `chat_id`;
returns `True` since the update list is nonempty. -/
def Database.update_chat_settings_paused (db : DB) (chat_id : Int) (v : Bool) : Bool × DB :=
  let db := (Database.add_chat db chat_id "").2
  let chats := db.chats.map (fun c => if c.chat_id == chat_id then { c with paused := v } else c)
  (true, { db with chats := chats })

/-! ## DBConfigManager (db_config_manager.py) -/

/-- Models `DBConfigManager.get_seen_items` (db_config_manager.py lines
85-87): delegates with the *default* empty url, so the result spans every
url of the chat. -/
def DBConfigManager.get_seen_items (db : DB) (chat_id : Int) : List String :=
  Database.get_seen_items db chat_id ""

/-- Models `DBConfigManager.add_seen_item` (db_config_manager.py lines
89-95): a falsy url falls back to the literal `"unknown"`. -/
def DBConfigManager.add_seen_item (db : DB) (chat_id : Int) (item_id : String) (url : String)
    (now : Int) : Bool × DB :=
  if url ≠ "" then Database.add_seen_item db chat_id item_id url now
  else Database.add_seen_item db chat_id item_id "unknown" now

/-! ## Marketplace clients: get_new_items -/

/-- `timedelta(days=7)` in seconds. -/
def sevenDays : Int := 7 * 86400

/-- The per-item body of the `for` loop in `VintedClient.get_new_items`
(vinted_client.py lines 96-101): an id absent from the pre-computed seen
set is appended to `new_items` only when listed within the last 7 days,
but is marked seen unconditionally. -/
def VintedClient.gniStep (seen_items : List String) (chat_id : Int) (url : String) (now : Int)
    (acc : List Item × DB) (item : Item) : List Item × DB :=
  if !(seen_items.contains item.id) then
    ((if now - item.created_at < sevenDays then acc.1 ++ [item] else acc.1),
     (DBConfigManager.add_seen_item acc.2 chat_id item.id url now).2)
  else acc

/-- Models `VintedClient.get_new_items` (vinted_client.py lines 82-104)
in the configured case (the bot always passes a config manager).  The
fetched `items` come from `search_items`, abstracted as an input; the
seen set is read once, for the chat as a whole, before the loop. -/
def VintedClient.get_new_items (db : DB) (url : String) (chat_id : Int) (items : List Item)
    (now : Int) : List Item × DB :=
  let seen_items := DBConfigManager.get_seen_items db chat_id
  items.foldl (VintedClient.gniStep seen_items chat_id url now) ([], db)

/-- The per-item body of the `for` loop in `LeBonCoinClient.get_new_items`
(lbc_client.py lines 104-109): like the Vinted loop but with no recency
check at all. -/
def LeBonCoinClient.gniStep (seen_items : List String) (chat_id : Int) (url : String) (now : Int)
    (acc : List Item × DB) (item : Item) : List Item × DB :=
  if !(seen_items.contains item.id) then
    (acc.1 ++ [item], (DBConfigManager.add_seen_item acc.2 chat_id item.id url now).2)
  else acc

/-- Models `LeBonCoinClient.get_new_items` (lbc_client.py lines 92-112)
in the configured case. -/
def LeBonCoinClient.get_new_items (db : DB) (url : String) (chat_id : Int) (items : List Item)
    (now : Int) : List Item × DB :=
  let seen_items := DBConfigManager.get_seen_items db chat_id
  items.foldl (LeBonCoinClient.gniStep seen_items chat_id url now) ([], db)

/-! ## The poll cycle (bot.py) -/

/-- Classification of a fetch-step exception, as `handle_error` reads it
off `str(e)`: a 403-class message, a 401-class message, or anything
else (timeouts, parse errors, `TypeError`, delivery errors...). -/
inductive FetchErr where
  | forbidden
  | unauthorized
  | other
deriving Repr, DecidableEq

/-- Result of one network fetch: the raw item list, or a raised error. -/
inductive FetchOutcome where
  | ok (items : List Item)
  | err (e : FetchErr)
deriving Repr, DecidableEq

/-- The cycle's external world: `fetch url k` is the outcome of the
`k`-th fetch attempt for `url` within the cycle; `sendOk chat id` is
whether the per-item notification delivery succeeds; `errSendOk chat url`
is whether the error-message delivery inside `handle_error` succeeds. -/
structure Oracle where
  fetch : String → Nat → FetchOutcome
  sendOk : Int → String → Bool
  errSendOk : Int → String → Bool

/-- Observable actions of a cycle, in order of occurrence. -/
inductive Event where
  | fetchAttempt (url : String) (k : Nat)
  | notified (chat_id : Int) (item_id : String)
  | errorSent (chat_id : Int) (url : String)
deriving Repr, DecidableEq

/-- Process state carried through a cycle: the store, each client's
`failed_attempts` counter, the proxy pool and its round-robin position,
the per-url attempt counts (indexing the fetch oracle), and the event
log. -/
structure BotState where
  db : DB
  vinted_failed_attempts : Nat
  lbc_failed_attempts : Nat
  proxies : List String
  proxy_index : Nat
  attempts : List (String × Nat)
  events : List Event
deriving Repr, DecidableEq

/-- Number of fetch attempts already made for `url` in this cycle. -/
def getAttempts (l : List (String × Nat)) (url : String) : Nat :=
  (l.lookup url).getD 0

/-- The two marketplace clients of bot.py. -/
inductive ClientKind where
  | vinted
  | lbc
deriving Repr, DecidableEq

/-- Client resolution as in `check_new_items_job` (bot.py lines 404-409):
Vinted's validator is consulted first, then LeBonCoin's; a url accepted by
neither is skipped silently. -/
def clientFor (url : String) : Option ClientKind :=
  if VintedClient.validate_url url then some ClientKind.vinted
  else if LeBonCoinClient.validate_url url then some ClientKind.lbc
  else none

/-- How a `handle_error` invocation ends: `retry` (returned `True`,
the caller requeues the url), `surfaced` (error message delivered,
returned `False`), or `raised` (the error-message send itself raised,
propagating out of the caller's `except` block). -/
inductive HandleResult where
  | retry
  | surfaced
  | raised
deriving Repr, DecidableEq

/-- The fall-through tail of `handle_error` (bot.py lines 377-384):
send the error text to the chat and return `False`; a failed send raises
out of the handler. -/
def surfaceError (o : Oracle) (st : BotState) (chat_id : Int) (url : String) :
    HandleResult × BotState :=
  if o.errSendOk chat_id url then
    (HandleResult.surfaced, { st with events := st.events ++ [Event.errorSent chat_id url] })
  else (HandleResult.raised, st)

/-- Models `VintedBot.handle_error` (bot.py lines 357-384).  For a Vinted
url: a 403-class error rotates to the next proxy — which succeeds exactly
when the pool is nonempty (`next(None)` raises into the bare `except`; the
follow-up ip probe is assumed to answer) — and yields a retry only while
`vinted_client.failed_attempts <= 1`; a 401-class error regenerates the
user agent under the same counter condition; anything else falls through.
For a LeBonCoin url the `elif` body is `pass`, so every error falls
through to the message. -/
def handle_error (o : Oracle) (st : BotState) (chat_id : Int) (url : String) (e : FetchErr) :
    HandleResult × BotState :=
  if VintedClient.validate_url url then
    if e == FetchErr.forbidden then
      if st.proxies.isEmpty then surfaceError o st chat_id url
      else
        if st.vinted_failed_attempts ≤ 1 then
          (HandleResult.retry, { st with proxy_index := st.proxy_index + 1 })
        else surfaceError o { st with proxy_index := st.proxy_index + 1 } chat_id url
    else if e == FetchErr.unauthorized then
      if st.vinted_failed_attempts ≤ 1 then (HandleResult.retry, st)
      else surfaceError o st chat_id url
    else surfaceError o st chat_id url
  else surfaceError o st chat_id url

/-- Dispatches a formatting call to the resolved client, as
`client.format_item_message(item, url)` does at bot.py lines 249 and 420. -/
def formatCall (ck : ClientKind) (args : List PyArg) : Except String String :=
  match ck with
  | ClientKind.vinted => VintedClient.format_item_message_call args
  | ClientKind.lbc => LeBonCoinClient.format_item_message_call args

/-- The notification `for` loop over `new_items` (bot.py lines 419-428):
format the item (a raised `TypeError` aborts the whole per-url `try`
block), send it (a delivery failure likewise raises), and continue.
Returns the error that escaped, if any, for the per-url `except`. -/
def notify_loop (o : Oracle) (ck : ClientKind) (chat_id : Int) (url : String) :
    BotState → List Item → BotState × Option FetchErr
  | st, [] => (st, none)
  | st, item :: rest =>
    match formatCall ck [PyArg.item item, PyArg.str url] with
    | Except.error _ => (st, some FetchErr.other)
    | Except.ok _ =>
      if o.sendOk chat_id item.id then
        notify_loop o ck chat_id url
          { st with events := st.events ++ [Event.notified chat_id item.id] } rest
      else (st, some FetchErr.other)

/-- Bumps the resolved client's `failed_attempts`, as the first line of
`search_items` does. -/
def incFailed (ck : ClientKind) (st : BotState) : BotState :=
  match ck with
  | ClientKind.vinted => { st with vinted_failed_attempts := st.vinted_failed_attempts + 1 }
  | ClientKind.lbc => { st with lbc_failed_attempts := st.lbc_failed_attempts + 1 }

/-- Resets the resolved client's `failed_attempts`, as the last line of a
successful `search_items` does. -/
def resetFailed (ck : ClientKind) (st : BotState) : BotState :=
  match ck with
  | ClientKind.vinted => { st with vinted_failed_attempts := 0 }
  | ClientKind.lbc => { st with lbc_failed_attempts := 0 }

/-- The resolved client's `get_new_items`. -/
def clientGetNewItems (ck : ClientKind) (db : DB) (url : String) (chat_id : Int)
    (items : List Item) (now : Int) : List Item × DB :=
  match ck with
  | ClientKind.vinted => VintedClient.get_new_items db url chat_id items now
  | ClientKind.lbc => LeBonCoinClient.get_new_items db url chat_id items now

/-- The body of the per-url `try` block (bot.py lines 403-431): run
`search_items` (counter up, fetch, counter reset on success) through
`get_new_items`, then the notification loop.  Returns the exception that
escaped the block, if any. -/
def process_url (o : Oracle) (now : Int) (chat_id : Int) (url : String) (ck : ClientKind)
    (st : BotState) : BotState × Option FetchErr :=
  let k := getAttempts st.attempts url
  let st := { st with attempts := (url, k + 1) :: st.attempts,
                      events := st.events ++ [Event.fetchAttempt url k] }
  let st := incFailed ck st
  match o.fetch url k with
  | FetchOutcome.err e => (st, some e)
  | FetchOutcome.ok raw =>
    let st := resetFailed ck st
    let res := clientGetNewItems ck st.db url chat_id raw now
    let st := { st with db := res.2 }
    notify_loop o ck chat_id url st res.1

/-- The `while search_urls:` loop of one chat (bot.py lines 401-434):
pop the head, resolve a client (skip silently when none), run the url,
and on an escaped exception consult `handle_error` — `True` requeues the
url at the back of the list, a raised error-send propagates out (the
returned flag).  Fuel only guards Lean's recursion: a requeue needs
`failed_attempts ≤ 1`, which after the increment means the previous
attempt of the cycle succeeded (or none exists), so requeues never exceed
successes + 1 and the loop runs at most `2 * length + 1` iterations —
callers pass `2 * length + 2`. -/
def chat_loop (o : Oracle) (now : Int) (chat_id : Int) :
    Nat → List String → BotState → BotState × Bool
  | 0, _, st => (st, false)
  | _ + 1, [], st => (st, false)
  | fuel + 1, url :: rest, st =>
    match clientFor url with
    | none => chat_loop o now chat_id fuel rest st
    | some ck =>
      match process_url o now chat_id url ck st with
      | (st1, none) => chat_loop o now chat_id fuel rest st1
      | (st1, some e) =>
        match handle_error o st1 chat_id url e with
        | (HandleResult.retry, st2) => chat_loop o now chat_id fuel (rest ++ [url]) st2
        | (HandleResult.surfaced, st2) => chat_loop o now chat_id fuel rest st2
        | (HandleResult.raised, st2) => (st2, true)

/-- The `for chat` loop of `check_new_items_job` (bot.py lines 392-434):
skip paused chats and chats without urls; a raised error-send escapes the
per-chat machinery and is caught only by the job-level `except`,
abandoning every remaining chat. -/
def check_loop (o : Oracle) (now : Int) : List (Int × Bool × List String) → BotState → BotState
  | [], st => st
  | (chat_id, paused, urls) :: rest, st =>
    if urls.isEmpty || paused then check_loop o now rest st
    else
      match chat_loop o now chat_id (2 * urls.length + 2) urls st with
      | (st1, true) => st1
      | (st1, false) => check_loop o now rest st1

/-- Models `VintedBot.check_new_items_job` (bot.py lines 386-437): snapshot
`get_all_chats` once, then walk it. -/
def VintedBot.check_new_items_job (o : Oracle) (now : Int) (st : BotState) : BotState :=
  check_loop o now (Database.get_all_chats st.db) st

/-- Models `VintedBot.startup_check` (bot.py lines 448-475): over a
one-time `get_all_chats` snapshot, set `paused = False` for every chat
whose stored flag is `True`. -/
def VintedBot.startup_check (db : DB) : DB :=
  (Database.get_all_chats db).foldl
    (fun db c => if c.2.1 then (Database.update_chat_settings_paused db c.1 false).2 else db) db

/-- Models `VintedBot.run` (bot.py lines 477-485) up to its observable
store effect: `startup_check` runs first, and `run_polling` (hence every
poll cycle) starts from the store it leaves behind. -/
def VintedBot.run_db_at_poll_start (db : DB) : DB :=
  VintedBot.startup_check db

/-! ## Helper lemmas: the seen-item ledger -/

/-- Membership in the chat-wide seen set read by `DBConfigManager`. -/
theorem mem_get_seen_items {db : DB} {chat : Int} {id : String} :
    id ∈ DBConfigManager.get_seen_items db chat ↔
      ∃ r ∈ db.seen_items, r.chat_id = chat ∧ r.item_id = id := by
  simp only [DBConfigManager.get_seen_items, Database.get_seen_items, ne_eq,
    not_true_eq_false, if_false, List.mem_map, List.mem_filter, beq_iff_eq]
  constructor
  · rintro ⟨r, ⟨hr, hc⟩, hid⟩
    exact ⟨r, hr, hc, hid⟩
  · rintro ⟨r, hr, hc, hid⟩
    exact ⟨r, ⟨hr, hc⟩, hid⟩

/-- `Database.add_seen_item` either leaves the table unchanged or appends
exactly the new record. -/
theorem add_seen_item_snd_seen (db : DB) (c : Int) (id url : String) (now : Int) :
    (Database.add_seen_item db c id url now).2.seen_items = db.seen_items ∨
    (Database.add_seen_item db c id url now).2.seen_items = db.seen_items ++ [⟨c, url, id, now⟩] := by
  unfold Database.add_seen_item
  split
  · exact Or.inl rfl
  · exact Or.inr rfl

/-- `DBConfigManager.add_seen_item` likewise appends at most one record,
and any appended record carries the target chat and item id. -/
theorem dbcm_add_seen_item_snd_seen (db : DB) (c : Int) (id url : String) (now : Int) :
    (DBConfigManager.add_seen_item db c id url now).2.seen_items = db.seen_items ∨
    ∃ u, (DBConfigManager.add_seen_item db c id url now).2.seen_items
          = db.seen_items ++ [⟨c, u, id, now⟩] := by
  unfold DBConfigManager.add_seen_item
  split
  · rcases add_seen_item_snd_seen db c id url now with h | h
    · exact Or.inl h
    · exact Or.inr ⟨url, h⟩
  · rcases add_seen_item_snd_seen db c id "unknown" now with h | h
    · exact Or.inl h
    · exact Or.inr ⟨"unknown", h⟩

/-- Seen-set membership is preserved by any `add_seen_item`. -/
theorem mem_seen_of_add {db : DB} {chat : Int} {id : String} (c2 : Int) (id2 url : String)
    (now : Int) (h : id ∈ DBConfigManager.get_seen_items db chat) :
    id ∈ DBConfigManager.get_seen_items (DBConfigManager.add_seen_item db c2 id2 url now).2 chat := by
  rw [mem_get_seen_items] at h ⊢
  rcases h with ⟨r, hr, hc, hid⟩
  rcases dbcm_add_seen_item_snd_seen db c2 id2 url now with h2 | ⟨u, h2⟩ <;>
    rw [h2] <;> exact ⟨r, by simp [hr], hc, hid⟩

/-- After `Database.add_seen_item`, some record carries the chat and item
id (either one already did, or the appended record does). -/
theorem database_add_seen_mem (db : DB) (c : Int) (id u : String) (now : Int) :
    ∃ r ∈ (Database.add_seen_item db c id u now).2.seen_items, r.chat_id = c ∧ r.item_id = id := by
  unfold Database.add_seen_item
  split
  · rename_i hany
    rw [List.any_eq_true] at hany
    rcases hany with ⟨r, hr, hp⟩
    simp only [Bool.and_eq_true, beq_iff_eq] at hp
    exact ⟨r, hr, hp.1.1, hp.2⟩
  · exact ⟨⟨c, u, id, now⟩, by simp, rfl, rfl⟩

/-- After `DBConfigManager.add_seen_item db c id url now`, the id is in the
chat's seen set (it either already was, or the new record witnesses it). -/
theorem mem_seen_after_add (db : DB) (c : Int) (id url : String) (now : Int) :
    id ∈ DBConfigManager.get_seen_items (DBConfigManager.add_seen_item db c id url now).2 c := by
  rw [mem_get_seen_items]
  unfold DBConfigManager.add_seen_item
  split
  · exact database_add_seen_mem db c id url now
  · exact database_add_seen_mem db c id "unknown" now

/-! ## Helper lemmas: the get_new_items folds -/

/-- The Vinted per-item step only grows the new-item list. -/
theorem vinted_gniStep_list_mono (seen : List String) (chat : Int) (url : String) (now : Int)
    (acc : List Item × DB) (h : Item) (x : Item) (hx : x ∈ acc.1) :
    x ∈ (VintedClient.gniStep seen chat url now acc h).1 := by
  unfold VintedClient.gniStep
  split
  · dsimp only
    split
    · exact List.mem_append_left _ hx
    · exact hx
  · exact hx

/-- The Vinted fold only grows the new-item list. -/
theorem vinted_fold_list_mono (seen : List String) (chat : Int) (url : String) (now : Int) :
    ∀ (items : List Item) (acc : List Item × DB) (x : Item), x ∈ acc.1 →
      x ∈ (items.foldl (VintedClient.gniStep seen chat url now) acc).1 := by
  intro items
  induction items with
  | nil => intro acc x hx; simpa using hx
  | cons h t ih =>
    intro acc x hx
    simp only [List.foldl_cons]
    exact ih _ x (vinted_gniStep_list_mono seen chat url now acc h x hx)

/-- Anything the Vinted fold puts into the new-item list was fetched,
was absent from the pre-computed seen set, and passed the 7-day check. -/
theorem vinted_fold_list_mem (seen : List String) (chat : Int) (url : String) (now : Int) :
    ∀ (items : List Item) (acc : List Item × DB) (x : Item),
      x ∈ (items.foldl (VintedClient.gniStep seen chat url now) acc).1 →
      x ∈ acc.1 ∨ (x ∈ items ∧ x.id ∉ seen ∧ now - x.created_at < sevenDays) := by
  intro items
  induction items with
  | nil => intro acc x hx; exact Or.inl (by simpa using hx)
  | cons h t ih =>
    intro acc x hx
    simp only [List.foldl_cons] at hx
    rcases ih _ x hx with hx1 | ⟨hmem, hns, hrec⟩
    · unfold VintedClient.gniStep at hx1
      by_cases hc : h.id ∈ seen
      · simp [hc] at hx1
        exact Or.inl hx1
      · simp [hc] at hx1
        by_cases hr : now - h.created_at < sevenDays
        · simp [hr] at hx1
          rcases hx1 with h1 | h1
          · exact Or.inl h1
          · subst h1
            exact Or.inr ⟨List.mem_cons_self _ _, hc, hr⟩
        · simp [hr] at hx1
          exact Or.inl hx1
    · exact Or.inr ⟨List.mem_cons_of_mem _ hmem, hns, hrec⟩

/-- A fetched item that is unseen and recent lands in the Vinted fold's
new-item list. -/
theorem vinted_fold_list_incl (seen : List String) (chat : Int) (url : String) (now : Int) :
    ∀ (items : List Item) (acc : List Item × DB) (x : Item), x ∈ items →
      x.id ∉ seen → now - x.created_at < sevenDays →
      x ∈ (items.foldl (VintedClient.gniStep seen chat url now) acc).1 := by
  intro items
  induction items with
  | nil => intro acc x hx; cases hx
  | cons h t ih =>
    intro acc x hx hns hrec
    simp only [List.foldl_cons]
    rcases List.mem_cons.mp hx with rfl | hx2
    · apply vinted_fold_list_mono
      unfold VintedClient.gniStep
      simp [hns, hrec]
    · exact ih _ x hx2 hns hrec

/-- The Vinted per-item step preserves seen-set membership (for any chat). -/
theorem vinted_gniStep_seen_mono (seen : List String) (chat c2 : Int) (url : String) (now : Int)
    (acc : List Item × DB) (h : Item) (id : String)
    (hid : id ∈ DBConfigManager.get_seen_items acc.2 c2) :
    id ∈ DBConfigManager.get_seen_items (VintedClient.gniStep seen chat url now acc h).2 c2 := by
  unfold VintedClient.gniStep
  split
  · exact mem_seen_of_add chat h.id url now hid
  · exact hid

/-- The Vinted fold preserves seen-set membership (for any chat). -/
theorem vinted_fold_seen_mono (seen : List String) (chat c2 : Int) (url : String) (now : Int) :
    ∀ (items : List Item) (acc : List Item × DB) (id : String),
      id ∈ DBConfigManager.get_seen_items acc.2 c2 →
      id ∈ DBConfigManager.get_seen_items
        ((items.foldl (VintedClient.gniStep seen chat url now) acc).2) c2 := by
  intro items
  induction items with
  | nil => intro acc id hid; simpa using hid
  | cons h t ih =>
    intro acc id hid
    simp only [List.foldl_cons]
    exact ih _ id (vinted_gniStep_seen_mono seen chat c2 url now acc h id hid)

/-- Every fetched item's id is in the chat's seen set after the Vinted
fold, whatever its age, provided the pre-computed seen set is contained in
the accumulator's (true of the initial call, where they coincide). -/
theorem vinted_fold_marks (seen : List String) (chat : Int) (url : String) (now : Int) :
    ∀ (items : List Item) (acc : List Item × DB) (x : Item), x ∈ items →
      (∀ s ∈ seen, s ∈ DBConfigManager.get_seen_items acc.2 chat) →
      x.id ∈ DBConfigManager.get_seen_items
        ((items.foldl (VintedClient.gniStep seen chat url now) acc).2) chat := by
  intro items
  induction items with
  | nil => intro acc x hx; cases hx
  | cons h t ih =>
    intro acc x hx hinv
    simp only [List.foldl_cons]
    rcases List.mem_cons.mp hx with rfl | hx2
    · by_cases hc : x.id ∈ seen
      · have hsub : x.id ∈ DBConfigManager.get_seen_items acc.2 chat := hinv _ hc
        exact vinted_fold_seen_mono seen chat chat url now t _ _
          (vinted_gniStep_seen_mono seen chat chat url now acc x _ hsub)
      · have hstep : x.id ∈
            DBConfigManager.get_seen_items (VintedClient.gniStep seen chat url now acc x).2 chat := by
          unfold VintedClient.gniStep
          split
          · exact mem_seen_after_add _ _ _ _ _
          · rename_i hcond
            simp at hcond
            exact absurd hcond hc
        exact vinted_fold_seen_mono seen chat chat url now t _ _ hstep
    · exact ih _ x hx2 (fun s hs =>
        vinted_gniStep_seen_mono seen chat chat url now acc h s (hinv s hs))

/-- The LeBonCoin per-item step only grows the new-item list. -/
theorem lbc_gniStep_list_mono (seen : List String) (chat : Int) (url : String) (now : Int)
    (acc : List Item × DB) (h : Item) (x : Item) (hx : x ∈ acc.1) :
    x ∈ (LeBonCoinClient.gniStep seen chat url now acc h).1 := by
  unfold LeBonCoinClient.gniStep
  split
  · exact List.mem_append_left _ hx
  · exact hx

/-- The LeBonCoin fold only grows the new-item list. -/
theorem lbc_fold_list_mono (seen : List String) (chat : Int) (url : String) (now : Int) :
    ∀ (items : List Item) (acc : List Item × DB) (x : Item), x ∈ acc.1 →
      x ∈ (items.foldl (LeBonCoinClient.gniStep seen chat url now) acc).1 := by
  intro items
  induction items with
  | nil => intro acc x hx; simpa using hx
  | cons h t ih =>
    intro acc x hx
    simp only [List.foldl_cons]
    exact ih _ x (lbc_gniStep_list_mono seen chat url now acc h x hx)

/-- A fetched item that is unseen lands in the LeBonCoin fold's new-item
list — there is no recency condition in this client. -/
theorem lbc_fold_list_incl (seen : List String) (chat : Int) (url : String) (now : Int) :
    ∀ (items : List Item) (acc : List Item × DB) (x : Item), x ∈ items →
      x.id ∉ seen →
      x ∈ (items.foldl (LeBonCoinClient.gniStep seen chat url now) acc).1 := by
  intro items
  induction items with
  | nil => intro acc x hx; cases hx
  | cons h t ih =>
    intro acc x hx hns
    simp only [List.foldl_cons]
    rcases List.mem_cons.mp hx with rfl | hx2
    · apply lbc_fold_list_mono
      unfold LeBonCoinClient.gniStep
      simp [hns]
    · exact ih _ x hx2 hns

/-! ## Claim C1 -/

/-- Concrete inputs for the C1 and C4 scenarios. -/
def cUrlA : String := "https://vinted.fr/a"

def cUrlB : String := "https://vinted.fr/b"

def cItemX : Item := ⟨"t", "5", "EUR", "u", "", "b", 1000, "x", ""⟩

def cDb1 : DB :=
  { chats := [⟨1, "c", false⟩], search_urls := [(1, cUrlA), (1, cUrlB)],
    seen_items := [⟨1, cUrlA, "x", 0⟩] }

/-- C1 counterexample: the store holds a SeenRecord for item id `x` only
under query `cUrlA`, the item is recent, and yet
`get_new_items` for the *other* query `cUrlB` returns nothing — the claim
says an id recorded as seen only under a different query of the same
subscriber is still treated as new for this query. -/
theorem C1_counterexample :
    (VintedClient.get_new_items cDb1 cUrlB 1 [cItemX] 1000).1 = [] ∧
    cDb1.seen_items.all (fun r => !(r.url == cUrlB)) = true ∧
    ((1000 : Int) - cItemX.created_at < sevenDays) := by
  refine ⟨by decide, by decide, by decide⟩

/-- C1 (amended): for a recent fetched item, the Vinted `get_new_items`
excludes its id exactly when a SeenRecord for that subscriber exists under
*any* query url — the dedup ledger is read chat-wide
(`DBConfigManager.get_seen_items` passes no url), so a same-query re-fetch
is excluded, but so is an id seen only under a different query. -/
theorem C1_excludes_iff_seen_chat_wide
    (db : DB) (url : String) (chat : Int) (items : List Item) (now : Int) (item : Item)
    (hmem : item ∈ items) (hrec : now - item.created_at < sevenDays) :
    item ∈ (VintedClient.get_new_items db url chat items now).1 ↔
      item.id ∉ DBConfigManager.get_seen_items db chat := by
  show item ∈ (items.foldl
      (VintedClient.gniStep (DBConfigManager.get_seen_items db chat) chat url now) ([], db)).1 ↔ _
  constructor
  · intro hx
    rcases vinted_fold_list_mem _ _ _ _ items ([], db) item hx with h1 | ⟨_, hns, _⟩
    · exact absurd h1 (by simp)
    · exact hns
  · intro hns
    exact vinted_fold_list_incl _ _ _ _ items ([], db) item hmem hns hrec

/-- C1 witness: the amended theorem applied at a concrete recent item
fetched for query `cUrlB` of chat 1. -/
theorem C1_witness :
    cItemX ∈ [cItemX] ∧ ((1000 : Int) - cItemX.created_at < sevenDays) ∧
    ¬(cItemX ∈ (VintedClient.get_new_items cDb1 cUrlB 1 [cItemX] 1000).1) :=
  ⟨by decide, by decide,
    fun hx => ((C1_excludes_iff_seen_chat_wide cDb1 cUrlB 1 [cItemX] 1000 cItemX
      (by decide) (by decide)).mp hx) (by decide)⟩

/-! ## Claim C4 -/

/-- An empty store shared by several concrete scenarios. -/
def cDb0 : DB := { chats := [⟨1, "c", false⟩], search_urls := [], seen_items := [] }

/-- A never-seen item listed 10 days before the reference time `10*86400`. -/
def cOld : Item := ⟨"t", "5", "EUR", "u", "", "b", 0, "old", ""⟩

/-- C4 counterexample: the LeBonCoin client's `get_new_items` returns a
never-seen item whose `created_at` lies 10 days in the past — the claim
says every marketplace client discards items older than the 7-day
look-back window. -/
theorem C4_counterexample :
    (LeBonCoinClient.get_new_items cDb0 "https://leboncoin.fr/r" 1 [cOld] (10 * 86400)).1
      = [cOld] ∧
    sevenDays ≤ (10 : Int) * 86400 - cOld.created_at ∧
    cDb0.seen_items = [] := by
  refine ⟨by decide, by decide, rfl⟩

/-- C4 (amended): only the Vinted client applies the 7-day look-back
filter — it excludes a never-seen item at least 7 days old and includes a
never-seen recent one — while the LeBonCoin client returns every
never-seen fetched item regardless of its `created_at`. -/
theorem C4_recency_vinted_only
    (db : DB) (url : String) (chat : Int) (items : List Item) (now : Int) (item : Item)
    (hmem : item ∈ items) (hunseen : item.id ∉ DBConfigManager.get_seen_items db chat) :
    (sevenDays ≤ now - item.created_at →
       item ∉ (VintedClient.get_new_items db url chat items now).1) ∧
    (now - item.created_at < sevenDays →
       item ∈ (VintedClient.get_new_items db url chat items now).1) ∧
    item ∈ (LeBonCoinClient.get_new_items db url chat items now).1 := by
  refine ⟨?_, ?_, ?_⟩
  · intro hstale hx
    rcases vinted_fold_list_mem (DBConfigManager.get_seen_items db chat) chat url now
        items ([], db) item hx with h1 | ⟨_, _, hrec⟩
    · exact absurd h1 (by simp)
    · exact absurd hrec (not_lt.mpr hstale)
  · intro hrec
    exact vinted_fold_list_incl _ _ _ _ items ([], db) item hmem hunseen hrec
  · exact lbc_fold_list_incl _ _ _ _ items ([], db) item hmem hunseen

/-- C4 witness: the amended theorem applied to the 10-day-old never-seen
item — the Vinted client excludes it, the LeBonCoin client keeps it. -/
theorem C4_witness :
    cOld ∈ [cOld] ∧ cOld.id ∉ DBConfigManager.get_seen_items cDb0 1 ∧
    sevenDays ≤ (10 : Int) * 86400 - cOld.created_at ∧
    cOld ∉ (VintedClient.get_new_items cDb0 cUrlA 1 [cOld] (10 * 86400)).1 ∧
    cOld ∈ (LeBonCoinClient.get_new_items cDb0 cUrlA 1 [cOld] (10 * 86400)).1 := by
  have h := C4_recency_vinted_only cDb0 cUrlA 1 [cOld] (10 * 86400) cOld (by decide) (by decide)
  exact ⟨by decide, by decide, by decide, h.1 (by decide), h.2.2⟩

/-! ## Claim C9 -/

/-- C9: the Vinted `get_new_items` marks every fetched item's id as seen —
including ids the 7-day filter keeps out of the returned list — and once an
id is in the chat's seen set, no later `get_new_items` call for that chat
ever returns an item bearing it. -/
theorem C9_marks_stale_and_never_returns
    (db : DB) (url : String) (chat : Int) (items : List Item) (now : Int) (item : Item)
    (hmem : item ∈ items) :
    item.id ∈ DBConfigManager.get_seen_items
      (VintedClient.get_new_items db url chat items now).2 chat ∧
    (∀ (db2 : DB) (url2 : String) (items2 : List Item) (now2 : Int) (it2 : Item),
       it2 ∈ items2 → it2.id ∈ DBConfigManager.get_seen_items db2 chat →
       it2 ∉ (VintedClient.get_new_items db2 url2 chat items2 now2).1) := by
  constructor
  · show item.id ∈ DBConfigManager.get_seen_items
      ((items.foldl (VintedClient.gniStep (DBConfigManager.get_seen_items db chat) chat url now)
        ([], db)).2) chat
    exact vinted_fold_marks _ _ _ _ items ([], db) item hmem (fun s hs => hs)
  · intro db2 url2 items2 now2 it2 hmem2 hseen2 hx
    rcases vinted_fold_list_mem (DBConfigManager.get_seen_items db2 chat) chat url2 now2
        items2 ([], db2) it2 hx with h1 | ⟨_, hns, _⟩
    · exact absurd h1 (by simp)
    · exact hns hseen2

/-- C9 witness: a 100-day-old item fetched once (well outside the 7-day
window) ends up in the chat's seen set. -/
theorem C9_witness :
    cOld ∈ [cOld] ∧
    cOld.id ∈ DBConfigManager.get_seen_items
      (VintedClient.get_new_items cDb0 cUrlA 1 [cOld] (100 * 86400)).2 1 :=
  ⟨by decide, (C9_marks_stale_and_never_returns cDb0 cUrlA 1 [cOld] (100 * 86400) cOld
    (by decide)).1⟩

/-! ## Claim C3 -/

/-- C3 (code bug): at both call sites the bot passes the item *and* its
source url (bot.py lines 249 and 420), yet each client's
`format_item_message` accepts exactly one positional argument, so the
call raises `TypeError` for every item and url, for both clients — no
notification or on-demand search message is ever produced.  The
one-argument body itself is a total, pure function yielding a string, as
the second conjunct records. -/
theorem C3_format_call_arity_bug (ck : ClientKind) (it : Item) (url : String) :
    formatCall ck [PyArg.item it, PyArg.str url] = Except.error "TypeError" ∧
    formatCall ck [PyArg.item it] = Except.ok (match ck with
      | ClientKind.vinted => VintedClient.format_item_message it
      | ClientKind.lbc => LeBonCoinClient.format_item_message it) := by
  cases ck <;> exact ⟨rfl, rfl⟩

/-! ## Claim C5 -/

/-- A sample Vinted search url. -/
def sampleVinted : String := "https://www.vinted.fr/catalog?search_text=nike"

/-- A sample LeBonCoin search url. -/
def sampleLbc : String := "https://www.leboncoin.fr/recherche?text=velo"

/-- A sample unsupported-marketplace url. -/
def sampleOther : String := "https://www.ebay.com/sch/i.html"

/-- A url whose host contains both marketplace substrings. -/
def overlapUrl : String := "https://vinted.leboncoin.fr/recherche"

/-- C5 counterexample: one url is accepted by both validators — the claim
that no url validates against more than one client fails, since each
validator merely tests substring containment on the lower-cased netloc. -/
theorem C5_counterexample :
    VintedClient.validate_url overlapUrl = true ∧
    LeBonCoinClient.validate_url overlapUrl = true :=
  ⟨by decide, by decide⟩

/-- C5 (amended): each validator is a pure predicate of the url's netloc
alone — equal netlocs give equal verdicts — and the two validators do
partition one typical host per marketplace plus an unsupported host with
no overlap; but they are not mutually exclusive for every url: a host
containing both substrings is accepted by both, and the bot's dispatch
resolves such overlaps by consulting the Vinted validator first. -/
theorem C5_validators_pure_not_disjoint :
    (∀ u1 u2 : String, urlparse_netloc u1 = urlparse_netloc u2 →
       VintedClient.validate_url u1 = VintedClient.validate_url u2 ∧
       LeBonCoinClient.validate_url u1 = LeBonCoinClient.validate_url u2) ∧
    (VintedClient.validate_url sampleVinted = true ∧
     LeBonCoinClient.validate_url sampleVinted = false) ∧
    (VintedClient.validate_url sampleLbc = false ∧
     LeBonCoinClient.validate_url sampleLbc = true) ∧
    (VintedClient.validate_url sampleOther = false ∧
     LeBonCoinClient.validate_url sampleOther = false) ∧
    clientFor overlapUrl = some ClientKind.vinted := by
  refine ⟨?_, ⟨by decide, by decide⟩, ⟨by decide, by decide⟩, ⟨by decide, by decide⟩, by decide⟩
  intro u1 u2 h
  unfold VintedClient.validate_url LeBonCoinClient.validate_url
  rw [h]
  exact ⟨rfl, rfl⟩

/-- C5 witness: purity applied to two distinct urls sharing the netloc
`vinted.fr`. -/
theorem C5_witness :
    urlparse_netloc cUrlA = urlparse_netloc cUrlB ∧
    VintedClient.validate_url cUrlA = VintedClient.validate_url cUrlB :=
  ⟨by decide, (C5_validators_pure_not_disjoint.1 cUrlA cUrlB (by decide)).1⟩

/-! ## Claim C7 -/

/-- C7: `remove_search_url` deletes the query row together with every
SeenRecord of that (chat, url) in the one transaction, leaves every other
row and table untouched, and returns `True` exactly when the url row was
present; the failing path (rolled-back transaction) returns `False` with
the store unchanged — so no state with the query but not its seen records
deleted (or vice versa) is reachable. -/
theorem C7_remove_query_atomic (db : DB) (chat : Int) (url : String) :
    Database.remove_search_url_io true db chat url = (false, db) ∧
    Database.remove_search_url_io false db chat url = Database.remove_search_url db chat url ∧
    (Database.remove_search_url db chat url).2.search_urls.all
        (fun p => !(p.1 == chat && p.2 == url)) = true ∧
    (Database.remove_search_url db chat url).2.seen_items.all
        (fun r => !(r.chat_id == chat && r.url == url)) = true ∧
    (Database.remove_search_url db chat url).1 =
        db.search_urls.any (fun p => p.1 == chat && p.2 == url) ∧
    (∀ p ∈ db.search_urls, ¬(p.1 = chat ∧ p.2 = url) →
        p ∈ (Database.remove_search_url db chat url).2.search_urls) ∧
    (∀ r ∈ db.seen_items, ¬(r.chat_id = chat ∧ r.url = url) →
        r ∈ (Database.remove_search_url db chat url).2.seen_items) ∧
    (Database.remove_search_url db chat url).2.chats = db.chats := by
  refine ⟨rfl, rfl, ?_, ?_, rfl, ?_, ?_, rfl⟩
  · rw [List.all_eq_true]
    intro p hp
    exact (List.mem_filter.mp hp).2
  · rw [List.all_eq_true]
    intro r hr
    exact (List.mem_filter.mp hr).2
  · intro p hp hne
    have hgoal : p ∈ db.search_urls.filter (fun p => !(p.1 == chat && p.2 == url)) := by
      rw [List.mem_filter]
      refine ⟨hp, ?_⟩
      simp only [Bool.not_eq_eq_eq_not, Bool.not_true, Bool.and_eq_false_imp, beq_eq_false_iff_ne,
        ne_eq, beq_iff_eq]
      intro h1 h2
      exact hne ⟨h1, h2⟩
    exact hgoal
  · intro r hr hne
    have hgoal : r ∈ db.seen_items.filter (fun r => !(r.chat_id == chat && r.url == url)) := by
      rw [List.mem_filter]
      refine ⟨hr, ?_⟩
      simp only [Bool.not_eq_eq_eq_not, Bool.not_true, Bool.and_eq_false_imp, beq_eq_false_iff_ne,
        ne_eq, beq_iff_eq]
      intro h1 h2
      exact hne ⟨h1, h2⟩
    exact hgoal

/-- C7 witness: removing query `cUrlA` of chat 1 clears its seen records,
reports `true`, and keeps the sibling query `cUrlB`. -/
theorem C7_witness :
    (Database.remove_search_url cDb1 1 cUrlA).2.seen_items.all
        (fun r => !(r.chat_id == 1 && r.url == cUrlA)) = true ∧
    ((1 : Int), cUrlB) ∈ (Database.remove_search_url cDb1 1 cUrlA).2.search_urls := by
  have h := C7_remove_query_atomic cDb1 1 cUrlA
  exact ⟨h.2.2.2.1, h.2.2.2.2.2.1 (1, cUrlB) (by decide) (by decide)⟩

/-! ## Claim C8 -/

/-- Number of `seen_items` rows with the given (chat, url, item_id) key. -/
def countSeen (db : DB) (chat : Int) (url id : String) : Nat :=
  db.seen_items.countP (fun r => r.chat_id == chat && r.url == url && r.item_id == id)

/-- `add_seen_item` on a present key is the no-op `(false, db)`. -/
theorem add_seen_item_of_any_true {db : DB} {chat : Int} {id url : String} {t : Int}
    (h : (db.seen_items.any fun r => r.chat_id == chat && r.url == url && r.item_id == id)
          = true) :
    Database.add_seen_item db chat id url t = (false, db) := by
  unfold Database.add_seen_item
  rw [if_pos h]

/-- `add_seen_item` on an absent key appends exactly the one new row. -/
theorem add_seen_item_of_any_false {db : DB} {chat : Int} {id url : String} {t : Int}
    (h : ¬((db.seen_items.any fun r => r.chat_id == chat && r.url == url && r.item_id == id)
          = true)) :
    Database.add_seen_item db chat id url t
      = (true, { db with seen_items := db.seen_items ++ [⟨chat, url, id, t⟩] }) := by
  unfold Database.add_seen_item
  rw [if_neg h]

/-- C8: `add_seen_item` (markSeen) is idempotent — starting from a store
satisfying the at-most-one-row-per-key invariant the sqlite primary key
maintains, calling it twice leaves exactly one SeenRecord for the triple,
and the second call changes nothing and reports `false` rather than
raising. -/
theorem C8_markSeen_idempotent (db : DB) (chat : Int) (url id : String) (t1 t2 : Int)
    (hinv : countSeen db chat url id ≤ 1) :
    countSeen (Database.add_seen_item
        (Database.add_seen_item db chat id url t1).2 chat id url t2).2 chat url id = 1 ∧
    (Database.add_seen_item (Database.add_seen_item db chat id url t1).2 chat id url t2).2
      = (Database.add_seen_item db chat id url t1).2 ∧
    (Database.add_seen_item (Database.add_seen_item db chat id url t1).2 chat id url t2).1
      = false := by
  by_cases h : (db.seen_items.any fun r => r.chat_id == chat && r.url == url && r.item_id == id)
      = true
  · have e1 : Database.add_seen_item db chat id url t1 = (false, db) :=
      add_seen_item_of_any_true h
    have e2 : Database.add_seen_item db chat id url t2 = (false, db) :=
      add_seen_item_of_any_true h
    have hpos : 0 < countSeen db chat url id := by
      rw [List.any_eq_true] at h
      rcases h with ⟨r, hr, hp⟩
      exact List.countP_pos_iff.mpr ⟨r, hr, hp⟩
    exact ⟨by simp only [e1, e2]; omega, by simp only [e1, e2], by simp only [e1, e2]⟩
  · rw [add_seen_item_of_any_false h]
    have hzero : countSeen db chat url id = 0 := by
      rw [List.any_eq_true] at h
      push_neg at h
      unfold countSeen
      rw [List.countP_eq_zero]
      intro r hr
      simp only [Bool.not_eq_true]
      rcases Bool.eq_false_or_eq_true (r.chat_id == chat && r.url == url && r.item_id == id)
        with ht | hf
      · exact absurd ht (h r hr)
      · exact hf
    have hkey : ((fun r : SeenRecord => r.chat_id == chat && r.url == url && r.item_id == id)
        (⟨chat, url, id, t1⟩ : SeenRecord)) = true := by simp
    have h2 : ((db.seen_items ++ [(⟨chat, url, id, t1⟩ : SeenRecord)]).any
        fun r => r.chat_id == chat && r.url == url && r.item_id == id) = true := by
      rw [List.any_eq_true]
      exact ⟨⟨chat, url, id, t1⟩, by simp, hkey⟩
    rw [add_seen_item_of_any_true h2]
    refine ⟨?_, rfl, rfl⟩
    unfold countSeen
    rw [List.countP_append]
    unfold countSeen at hzero
    rw [hzero]
    simp [List.countP, List.countP.go, hkey]

/-- C8 witness: the theorem at chat 1, key (`cUrlA`, id `"y"`), over the
store `cDb1` (which holds no row for that key). -/
theorem C8_witness :
    countSeen cDb1 1 cUrlA "y" ≤ 1 ∧
    countSeen (Database.add_seen_item
        (Database.add_seen_item cDb1 1 "y" cUrlA 5).2 1 "y" cUrlA 6).2 1 cUrlA "y" = 1 :=
  ⟨by decide, (C8_markSeen_idempotent cDb1 1 cUrlA "y" 5 6 (by decide)).1⟩

/-! ## Claim C10 -/

/-- Rows still paused after `update_chat_settings_paused db cid false`
were paused rows of `db` with a different chat id. -/
theorem update_paused_false_chats (db : DB) (cid : Int) :
    ∀ c ∈ (Database.update_chat_settings_paused db cid false).2.chats,
      c.paused = true → c ∈ db.chats ∧ c.chat_id ≠ cid := by
  intro c hc hp
  have hc' : c ∈ ((Database.add_chat db cid "").2).chats.map
      (fun c => if c.chat_id == cid then { c with paused := false } else c) := hc
  rw [List.mem_map] at hc'
  rcases hc' with ⟨c0, hc0, heq⟩
  by_cases hid : c0.chat_id == cid
  · rw [if_pos hid] at heq
    rw [← heq] at hp
    cases hp
  · rw [if_neg hid] at heq
    subst heq
    have hdb : c0 ∈ db.chats := by
      unfold Database.add_chat at hc0
      split at hc0
      · exact hc0
      · simp only at hc0
        rcases List.mem_append.mp hc0 with h1 | h1
        · exact h1
        · rw [List.mem_singleton] at h1
          subst h1
          cases hp
    exact ⟨hdb, fun he => hid (by rw [he]; exact beq_self_eq_true cid)⟩

/-- Folding the startup walk over a snapshot that covers every paused row
leaves no paused row behind. -/
theorem startup_fold_unpauses :
    ∀ (snap : List (Int × Bool × List String)) (db : DB),
      (∀ c ∈ db.chats, c.paused = true → ∃ urls, (c.chat_id, true, urls) ∈ snap) →
      ∀ c ∈ (snap.foldl
          (fun db e => if e.2.1 then (Database.update_chat_settings_paused db e.1 false).2 else db)
          db).chats,
        c.paused = false := by
  intro snap
  induction snap with
  | nil =>
    intro db hcov c hc
    rcases Bool.eq_false_or_eq_true c.paused with ht | hf
    · rcases hcov c hc ht with ⟨urls, hmem⟩
      cases hmem
    · exact hf
  | cons e t ih =>
    intro db hcov c hc
    simp only [List.foldl_cons] at hc
    by_cases he : e.2.1 = true
    · rw [if_pos he] at hc
      refine ih _ ?_ c hc
      intro c2 hc2 hp2
      rcases update_paused_false_chats db e.1 c2 hc2 hp2 with ⟨hdb, hne⟩
      rcases hcov c2 hdb hp2 with ⟨urls, hmem⟩
      rcases List.mem_cons.mp hmem with h1 | h1
      · exact absurd (show c2.chat_id = e.1 by rw [← h1]) hne
      · exact ⟨urls, h1⟩
    · rw [if_neg he] at hc
      refine ih _ ?_ c hc
      intro c2 hc2 hp2
      rcases hcov c2 hc2 hp2 with ⟨urls, hmem⟩
      rcases List.mem_cons.mp hmem with h1 | h1
      · exact absurd (show e.2.1 = true by rw [← h1]) he
      · exact ⟨urls, h1⟩

/-- C10: `run` executes `startup_check` before polling begins, and after
it every chat row — in particular every previously paused one — has
`paused = false`, so a subscriber's paused state never survives a process
restart. -/
theorem C10_startup_unpauses_all (db : DB) :
    (∀ c ∈ (VintedBot.run_db_at_poll_start db).chats, c.paused = false) ∧
    VintedBot.run_db_at_poll_start db = VintedBot.startup_check db := by
  refine ⟨?_, rfl⟩
  intro c hc
  refine startup_fold_unpauses (Database.get_all_chats db) db ?_ c hc
  intro c2 hc2 hp2
  refine ⟨Database.get_search_urls db c2.chat_id, ?_⟩
  unfold Database.get_all_chats
  rw [List.mem_map]
  exact ⟨c2, hc2, by rw [hp2]⟩

/-- A store with one paused and one active chat, for the C10 witness. -/
def cDbPaused : DB :=
  { chats := [⟨1, "c", true⟩, ⟨2, "d", false⟩], search_urls := [], seen_items := [] }

/-- C10 witness: chat 1 was stored paused, and the row the startup pass
leaves for it is unpaused. -/
theorem C10_witness :
    ChatRow.mk 1 "c" true ∈ cDbPaused.chats ∧
    ChatRow.mk 1 "c" false ∈ (VintedBot.run_db_at_poll_start cDbPaused).chats ∧
    (ChatRow.mk 1 "c" false).paused = false :=
  ⟨by decide, by decide,
    (C10_startup_unpauses_all cDbPaused).1 (ChatRow.mk 1 "c" false) (by decide)⟩

/-! ## Helper lemmas: the poll cycle -/

/-- Whether the event log records any fetch attempt for `url`. -/
def attemptedB (url : String) (evs : List Event) : Bool :=
  evs.any (fun ev => match ev with
    | Event.fetchAttempt u _ => u == url
    | _ => false)

/-- `attemptedB` is monotone under event-log extension. -/
theorem attemptedB_mono {url : String} {evs1 evs2 : List Event}
    (hsub : ∀ ev ∈ evs1, ev ∈ evs2) (h : attemptedB url evs1 = true) :
    attemptedB url evs2 = true := by
  unfold attemptedB at h ⊢
  rw [List.any_eq_true] at h ⊢
  rcases h with ⟨ev, hev, hp⟩
  exact ⟨ev, hsub ev hev, hp⟩

/-- The notification loop leaves the state unchanged: the two-argument
formatting call raises `TypeError` on the very first item, so no message
is ever sent and no event recorded. -/
theorem notify_loop_state (o : Oracle) (ck : ClientKind) (chat : Int) (url : String)
    (st : BotState) (items : List Item) :
    (notify_loop o ck chat url st items).1 = st := by
  cases items with
  | nil => rfl
  | cons h t => cases ck <;> rfl

/-- `surfaceError` only ever appends to the event log. -/
theorem surfaceError_events (o : Oracle) (st : BotState) (chat : Int) (url : String) :
    ∀ ev ∈ st.events, ev ∈ (surfaceError o st chat url).2.events := by
  intro ev hev
  unfold surfaceError
  split
  · exact List.mem_append_left _ hev
  · exact hev

/-- `handle_error` only ever appends to the event log. -/
theorem handle_error_events (o : Oracle) (st : BotState) (chat : Int) (url : String)
    (e : FetchErr) :
    ∀ ev ∈ st.events, ev ∈ (handle_error o st chat url e).2.events := by
  intro ev hev
  unfold handle_error
  split
  · split
    · split
      · exact surfaceError_events o st chat url ev hev
      · split
        · exact hev
        · exact surfaceError_events o _ chat url ev hev
    · split
      · split
        · exact hev
        · exact surfaceError_events o st chat url ev hev
      · exact surfaceError_events o st chat url ev hev
  · exact surfaceError_events o st chat url ev hev

/-- When the error-message delivery succeeds, `handle_error` ends in
`retry` or `surfaced`, never `raised`. -/
theorem handle_error_result (o : Oracle) (st : BotState) (chat : Int) (url : String)
    (e : FetchErr) (hok : o.errSendOk chat url = true) :
    (handle_error o st chat url e).1 = HandleResult.retry ∨
    (handle_error o st chat url e).1 = HandleResult.surfaced := by
  have hs : ∀ st2 : BotState, (surfaceError o st2 chat url).1 = HandleResult.surfaced := by
    intro st2
    unfold surfaceError
    rw [if_pos hok]
  unfold handle_error
  split
  · split
    · split
      · exact Or.inr (hs st)
      · split
        · exact Or.inl rfl
        · exact Or.inr (hs _)
    · split
      · split
        · exact Or.inl rfl
        · exact Or.inr (hs st)
      · exact Or.inr (hs st)
  · exact Or.inr (hs st)

/-- `process_url` keeps every previous event and records a fetch attempt
for its url at the current attempt index. -/
theorem process_url_events (o : Oracle) (now : Int) (chat : Int) (url : String)
    (ck : ClientKind) (st : BotState) :
    (∀ ev ∈ st.events, ev ∈ (process_url o now chat url ck st).1.events) ∧
    Event.fetchAttempt url (getAttempts st.attempts url)
      ∈ (process_url o now chat url ck st).1.events := by
  simp only [process_url]
  split
  · cases ck <;>
      exact ⟨fun ev hev => List.mem_append_left _ hev,
        List.mem_append_right _ (List.mem_singleton_self _)⟩
  · rw [notify_loop_state]
    cases ck <;>
      exact ⟨fun ev hev => List.mem_append_left _ hev,
        List.mem_append_right _ (List.mem_singleton_self _)⟩

/-- The per-chat while loop only ever appends to the event log. -/
theorem chat_loop_events (o : Oracle) (now : Int) (chat : Int) :
    ∀ (fuel : Nat) (queue : List String) (st : BotState) (ev : Event), ev ∈ st.events →
      ev ∈ (chat_loop o now chat fuel queue st).1.events := by
  intro fuel
  induction fuel with
  | zero => intro queue st ev hev; exact hev
  | succ n ih =>
    intro queue st ev hev
    cases queue with
    | nil => exact hev
    | cons url rest =>
      rcases hcf : clientFor url with _ | ck
      · simp only [chat_loop, hcf]
        exact ih rest st ev hev
      · simp only [chat_loop, hcf]
        rcases hp : process_url o now chat url ck st with ⟨st1, oe⟩
        have hst1 : ev ∈ st1.events := by
          have h2 := (process_url_events o now chat url ck st).1 ev hev
          rw [hp] at h2
          exact h2
        cases oe with
        | none => exact ih rest st1 ev hst1
        | some e =>
          rcases hh : handle_error o st1 chat url e with ⟨hr, st2⟩
          have hst2 : ev ∈ st2.events := by
            have h3 := handle_error_events o st1 chat url e ev hst1
            rw [hh] at h3
            exact h3
          cases hr with
          | retry => simp only [hh]; exact ih (rest ++ [url]) st2 ev hst2
          | surfaced => simp only [hh]; exact ih rest st2 ev hst2
          | raised => simp only [hh]; exact hst2

/-- When every error-message delivery succeeds, the per-chat loop never
ends in the raised state. -/
theorem chat_loop_no_raise (o : Oracle) (now : Int) (chat : Int)
    (hok : ∀ c u, o.errSendOk c u = true) :
    ∀ (fuel : Nat) (queue : List String) (st : BotState),
      (chat_loop o now chat fuel queue st).2 = false := by
  intro fuel
  induction fuel with
  | zero => intro queue st; rfl
  | succ n ih =>
    intro queue st
    cases queue with
    | nil => rfl
    | cons url rest =>
      rcases hcf : clientFor url with _ | ck
      · simp only [chat_loop, hcf]
        exact ih rest st
      · simp only [chat_loop, hcf]
        rcases hp : process_url o now chat url ck st with ⟨st1, oe⟩
        cases oe with
        | none => exact ih rest st1
        | some e =>
          rcases hh : handle_error o st1 chat url e with ⟨hr, st2⟩
          cases hr with
          | retry => simp only [hh]; exact ih (rest ++ [url]) st2
          | surfaced => simp only [hh]; exact ih rest st2
          | raised =>
            rcases handle_error_result o st1 chat url e (hok chat url) with hres | hres <;>
              (rw [hh] at hres; simp at hres)

/-- Pops from the front of the queue, with requeues appended behind, first
consume every url initially present; so with fuel at least the length of a
front segment, every url of that segment whose host resolves to a client
gets a fetch attempt — whatever the fetch, formatting or item-delivery
failures along the way, provided error-message deliveries succeed. -/
theorem chat_loop_covers (o : Oracle) (now : Int) (chat : Int)
    (hok : ∀ c u, o.errSendOk c u = true) :
    ∀ (q1 q2 : List String) (fuel : Nat) (st : BotState), q1.length ≤ fuel →
      ∀ url ∈ q1, clientFor url ≠ none →
        attemptedB url (chat_loop o now chat fuel (q1 ++ q2) st).1.events = true := by
  intro q1
  induction q1 with
  | nil => intro q2 fuel st hf url hurl; cases hurl
  | cons u q1' ih =>
    intro q2 fuel st hf url hurl hck
    cases fuel with
    | zero => exact absurd hf (by simp)
    | succ n =>
      have hn : q1'.length ≤ n := by simpa using hf
      rcases List.mem_cons.mp hurl with rfl | hmem
      · rcases hcf : clientFor url with _ | ck
        · exact absurd hcf hck
        · simp only [List.cons_append, chat_loop, hcf]
          rcases hp : process_url o now chat url ck st with ⟨st1, oe⟩
          have hatt : attemptedB url st1.events = true := by
            have h2 := (process_url_events o now chat url ck st).2
            rw [hp] at h2
            unfold attemptedB
            rw [List.any_eq_true]
            exact ⟨_, h2, by simp⟩
          cases oe with
          | none =>
            exact attemptedB_mono
              (fun ev hev => chat_loop_events o now chat n (q1' ++ q2) st1 ev hev) hatt
          | some e =>
            rcases hh : handle_error o st1 chat url e with ⟨hr, st2⟩
            have hst2 : ∀ ev ∈ st1.events, ev ∈ st2.events := by
              intro ev hev
              have h3 := handle_error_events o st1 chat url e ev hev
              rw [hh] at h3
              exact h3
            have hatt2 : attemptedB url st2.events = true := attemptedB_mono hst2 hatt
            cases hr with
            | retry =>
              simp only [hh]
              exact attemptedB_mono
                (fun ev hev => chat_loop_events o now chat n (q1' ++ q2 ++ [url]) st2 ev hev) hatt2
            | surfaced =>
              simp only [hh]
              exact attemptedB_mono
                (fun ev hev => chat_loop_events o now chat n (q1' ++ q2) st2 ev hev) hatt2
            | raised => simp only [hh]; exact hatt2
      · rcases hcf : clientFor u with _ | ck
        · simp only [List.cons_append, chat_loop, hcf]
          exact ih q2 n st hn url hmem hck
        · simp only [List.cons_append, chat_loop, hcf]
          rcases hp : process_url o now chat u ck st with ⟨st1, oe⟩
          cases oe with
          | none => exact ih q2 n st1 hn url hmem hck
          | some e =>
            rcases hh : handle_error o st1 chat u e with ⟨hr, st2⟩
            cases hr with
            | retry =>
              simp only [hh, List.append_eq, List.append_assoc]
              exact ih (q2 ++ [u]) n st2 hn url hmem hck
            | surfaced =>
              simp only [hh]
              exact ih q2 n st2 hn url hmem hck
            | raised =>
              rcases handle_error_result o st1 chat u e (hok chat u) with hres | hres <;>
                (rw [hh] at hres; simp at hres)

/-- The chat walk of the job only ever appends to the event log. -/
theorem check_loop_events (o : Oracle) (now : Int) :
    ∀ (chats : List (Int × Bool × List String)) (st : BotState) (ev : Event),
      ev ∈ st.events → ev ∈ (check_loop o now chats st).events := by
  intro chats
  induction chats with
  | nil => intro st ev hev; exact hev
  | cons c rest ih =>
    intro st ev hev
    rcases c with ⟨cid, paused, urls⟩
    simp only [check_loop]
    split
    · exact ih st ev hev
    · rcases hcl : chat_loop o now cid (2 * urls.length + 2) urls st with ⟨st1, raised⟩
      have hst1 : ev ∈ st1.events := by
        have h2 := chat_loop_events o now cid (2 * urls.length + 2) urls st ev hev
        rw [hcl] at h2
        exact h2
      cases raised with
      | true => simp only [hcl]; exact hst1
      | false => simp only [hcl]; exact ih st1 ev hst1

/-- Under always-succeeding error-message delivery, every url of every
eligible (unpaused, url-bearing) chat in the walked snapshot that resolves
to a client gets at least one fetch attempt. -/
theorem check_loop_covers (o : Oracle) (now : Int)
    (hok : ∀ c u, o.errSendOk c u = true) :
    ∀ (chats : List (Int × Bool × List String)) (st : BotState)
      (cid : Int) (urls : List String), (cid, false, urls) ∈ chats → urls ≠ [] →
      ∀ url ∈ urls, clientFor url ≠ none →
        attemptedB url (check_loop o now chats st).events = true := by
  intro chats
  induction chats with
  | nil => intro st cid urls hmem; cases hmem
  | cons c rest ih =>
    intro st cid urls hmem hne url hurl hck
    rcases List.mem_cons.mp hmem with heq | hmem2
    · subst heq
      simp only [check_loop]
      rw [if_neg (by simp [hne])]
      rcases hcl : chat_loop o now cid (2 * urls.length + 2) urls st with ⟨st1, raised⟩
      have hatt : attemptedB url st1.events = true := by
        have h2 := chat_loop_covers o now cid hok urls [] (2 * urls.length + 2) st
          (by omega) url hurl hck
        rw [List.append_nil] at h2
        rw [hcl] at h2
        exact h2
      cases raised with
      | true => simp only [hcl]; exact hatt
      | false =>
        simp only [hcl]
        exact attemptedB_mono (fun ev hev => check_loop_events o now rest st1 ev hev) hatt
    · rcases c with ⟨cid', p', urls'⟩
      simp only [check_loop]
      split
      · exact ih st cid urls hmem2 hne url hurl hck
      · rcases hcl : chat_loop o now cid' (2 * urls'.length + 2) urls' st with ⟨st1, raised⟩
        cases raised with
        | true =>
          have h2 := chat_loop_no_raise o now cid' hok (2 * urls'.length + 2) urls' st
          rw [hcl] at h2
          simp at h2
        | false =>
          simp only [hcl]
          exact ih st1 cid urls hmem2 hne url hurl hck

/-! ## Claim C2 -/

/-- A store with one chat monitoring urls A and B, for the C2 scenario. -/
def xDb2 : DB :=
  { chats := [⟨1, "c", false⟩], search_urls := [(1, cUrlA), (1, cUrlB)], seen_items := [] }

/-- Cycle start state for the C2 scenario: a proxy pool is configured and
both failure counters are zero. -/
def xSt2 : BotState :=
  { db := xDb2, vinted_failed_attempts := 0, lbc_failed_attempts := 0,
    proxies := ["p"], proxy_index := 0, attempts := [], events := [] }

/-- Oracle for the C2 scenario: url A fails with a 403 on every attempt,
url B succeeds (with no items); all deliveries succeed. -/
def xOracle2 : Oracle :=
  { fetch := fun u _ => if u == cUrlB then FetchOutcome.ok [] else FetchOutcome.err FetchErr.forbidden,
    sendOk := fun _ _ => true, errSendOk := fun _ _ => true }

/-- C2 counterexample: in one scheduled cycle, url A receives a *third*
fetch attempt (index 2).  A's first 403 is retried; B's success in between
resets the client's shared consecutive-failure counter, so A's second 403
is judged a first failure and retried again.  The claim's "at most one
retry / no third fetch attempt in the same cycle" fails. -/
theorem C2_counterexample :
    Event.fetchAttempt cUrlA 2 ∈ (VintedBot.check_new_items_job xOracle2 0 xSt2).events ∧
    xOracle2.fetch cUrlA 0 = FetchOutcome.err FetchErr.forbidden ∧
    xOracle2.fetch cUrlA 1 = FetchOutcome.err FetchErr.forbidden := by
  refine ⟨by decide, by decide, by decide⟩

/-- C2 (amended): `handle_error` offers a retry only while the Vinted
client's consecutive-failure counter is at most 1, and whenever the
counter has reached 2 — as it has when the same query fails twice with no
intervening successful fetch — the failure is surfaced as an error
message to the subscriber and the query is not requeued.  Because the
counter is shared per client and reset by any successful fetch, a success
on another query between two failures re-arms the retry, so a query can
be fetched three or more times in one cycle. -/
theorem C2_retry_gated_by_counter
    (o : Oracle) (st : BotState) (chat : Int) (url : String) (e : FetchErr)
    (hok : o.errSendOk chat url = true) :
    ((handle_error o st chat url e).1 = HandleResult.retry → st.vinted_failed_attempts ≤ 1) ∧
    (2 ≤ st.vinted_failed_attempts →
      (handle_error o st chat url e).1 = HandleResult.surfaced ∧
      Event.errorSent chat url ∈ (handle_error o st chat url e).2.events) := by
  have hsurf : ∀ st2 : BotState, (surfaceError o st2 chat url).1 = HandleResult.surfaced ∧
      Event.errorSent chat url ∈ (surfaceError o st2 chat url).2.events := by
    intro st2
    unfold surfaceError
    rw [if_pos hok]
    exact ⟨rfl, List.mem_append_right _ (List.mem_singleton_self _)⟩
  have hns : ∀ st2 : BotState, ¬((surfaceError o st2 chat url).1 = HandleResult.retry) := by
    intro st2 hcontra
    rw [(hsurf st2).1] at hcontra
    cases hcontra
  unfold handle_error
  split
  · split
    · split
      · exact ⟨fun h => absurd h (hns st), fun _ => hsurf st⟩
      · split
        · rename_i hle
          exact ⟨fun _ => hle, fun h2 => absurd hle (by omega)⟩
        · exact ⟨fun h => absurd h (hns _), fun _ => hsurf _⟩
    · split
      · split
        · rename_i hle
          exact ⟨fun _ => hle, fun h2 => absurd hle (by omega)⟩
        · exact ⟨fun h => absurd h (hns st), fun _ => hsurf st⟩
      · exact ⟨fun h => absurd h (hns st), fun _ => hsurf st⟩
  · exact ⟨fun h => absurd h (hns st), fun _ => hsurf st⟩

/-- A state whose Vinted counter already records two consecutive
failures, for the C2 witness. -/
def wSt2 : BotState :=
  { db := xDb2, vinted_failed_attempts := 2, lbc_failed_attempts := 0,
    proxies := ["p"], proxy_index := 0, attempts := [], events := [] }

/-- C2 witness: with the counter at 2, a 403 on a Vinted url is surfaced
(no retry) even though a proxy is available. -/
theorem C2_witness :
    xOracle2.errSendOk 1 cUrlA = true ∧
    2 ≤ wSt2.vinted_failed_attempts ∧
    (handle_error xOracle2 wSt2 1 cUrlA FetchErr.forbidden).1 = HandleResult.surfaced :=
  ⟨rfl, by decide,
    ((C2_retry_gated_by_counter xOracle2 wSt2 1 cUrlA FetchErr.forbidden rfl).2 (by decide)).1⟩

/-! ## Claim C6 -/

/-- Two chats, each with one Vinted query, for the C6 scenarios. -/
def xDb6 : DB :=
  { chats := [⟨1, "c", false⟩, ⟨2, "d", false⟩],
    search_urls := [(1, cUrlA), (2, cUrlB)], seen_items := [] }

/-- Cycle start state for the C6 scenarios. -/
def xSt6 : BotState :=
  { db := xDb6, vinted_failed_attempts := 0, lbc_failed_attempts := 0,
    proxies := [], proxy_index := 0, attempts := [], events := [] }

/-- Two fresh recent items fetched for chat 1's query. -/
def xi1 : Item := ⟨"t1", "5", "EUR", "u1", "", "b", 0, "i1", cUrlA⟩

/-- The second of the two items; its notification is never delivered. -/
def xi2 : Item := ⟨"t2", "6", "EUR", "u2", "", "b", 0, "i2", cUrlA⟩

/-- C6 counterexample oracle: chat 1's query yields two new items; the
error-message delivery to chat 1 fails; everything else succeeds. -/
def xOracle6 : Oracle :=
  { fetch := fun u _ => if u == cUrlA then FetchOutcome.ok [xi1, xi2] else FetchOutcome.ok [],
    sendOk := fun _ _ => true,
    errSendOk := fun c u => !(c == 1 && u == cUrlA) }

/-- C6 counterexample: chat 1's query produces two genuinely new items,
yet the failure raised while notifying the first (the formatting
`TypeError`) aborts the remaining item — no notification for `i2` is ever
recorded — and, the error-message delivery failing too, the whole rest of
the cycle is abandoned: chat 2's query is never fetched.  Both the
"remaining items" and the "remaining subscribers" parts of the claim
fail. -/
theorem C6_counterexample :
    (VintedClient.get_new_items xDb6 cUrlA 1 [xi1, xi2] 0).1 = [xi1, xi2] ∧
    Event.notified 1 "i2" ∉ (VintedBot.check_new_items_job xOracle6 0 xSt6).events ∧
    attemptedB cUrlB (VintedBot.check_new_items_job xOracle6 0 xSt6).events = false := by
  refine ⟨by decide, by decide, by decide⟩

/-- C6 (amended): a failure while processing one query — a fetch error, the
formatting `TypeError`, or an item-delivery failure — aborts only that
query's remaining items and is surfaced through `handle_error`; provided
the error-message deliveries themselves succeed, every query of every
unpaused, url-bearing subscriber that resolves to a client still receives
at least one fetch attempt in the cycle.  (If an error-message delivery
fails, the exception escapes to the job-level handler and the remainder of
the cycle is abandoned, as the counterexample shows.) -/
theorem C6_failures_isolated_if_error_sends_ok
    (o : Oracle) (now : Int) (st : BotState)
    (hok : ∀ c u, o.errSendOk c u = true)
    (cid : Int) (urls : List String)
    (hchat : (cid, false, urls) ∈ Database.get_all_chats st.db)
    (hne : urls ≠ []) (url : String) (hurl : url ∈ urls) (hck : clientFor url ≠ none) :
    attemptedB url (VintedBot.check_new_items_job o now st).events = true :=
  check_loop_covers o now hok (Database.get_all_chats st.db) st cid urls hchat hne url hurl hck

/-- C6 witness oracle: like the counterexample's, but every error-message
delivery succeeds. -/
def wOracle6 : Oracle :=
  { fetch := fun u _ => if u == cUrlA then FetchOutcome.ok [xi1, xi2] else FetchOutcome.ok [],
    sendOk := fun _ _ => true, errSendOk := fun _ _ => true }

/-- C6 witness: with error sends succeeding, chat 2's query is fetched in
the cycle despite the formatting failure on chat 1's items. -/
theorem C6_witness :
    ((2 : Int), false, [cUrlB]) ∈ Database.get_all_chats xSt6.db ∧
    ([cUrlB] : List String) ≠ [] ∧
    cUrlB ∈ [cUrlB] ∧
    clientFor cUrlB ≠ none ∧
    attemptedB cUrlB (VintedBot.check_new_items_job wOracle6 0 xSt6).events = true :=
  ⟨by decide, by decide, by decide, by decide,
    C6_failures_isolated_if_error_sends_ok wOracle6 0 xSt6 (fun _ _ => rfl) 2 [cUrlB]
      (by decide) (by decide) cUrlB (by decide) (by decide)⟩
